import Mathlib

/-!
Shallow embedding of `vtkplotter/plotter.py` (class `Plotter`), restricted to
the state and arithmetic the specification talks about: the insertion-ordered
`actors` list of opaque renderable handles, the camera interpolation
`moveCamera`, the grid-shape selection of the constructor, the slider position
option table of `addSlider`, and the error paths of `load`, `show` (legend
dispatch) and `removeActor`.

Actor handles are opaque: we model them as natural numbers.  Methods that
create a fresh handle through the external toolkit (`shapes.sphere`,
`vtk.vtkActor`, ...) take the fresh handle as an explicit argument.
Floating-point quantities of the camera and of the slider table are modelled
as exact rationals; the integer arithmetic of the constructor is modelled on
`Nat` with truncating division and `Nat.sqrt` for `int(numpy.sqrt(...))`.
-/

namespace VPlot

/-- 3-vectors of rationals, standing for the numpy arrays of camera
position / focal point / view-up. -/
abbrev Vec3 := ℚ × ℚ × ℚ

/-- Elementwise scalar multiplication `k * v` of a numpy 3-vector. -/
def smul3 (k : ℚ) (v : Vec3) : Vec3 := (k * v.1, k * v.2.1, k * v.2.2)

/-- Elementwise addition of numpy 3-vectors. -/
def add3 (v w : Vec3) : Vec3 := (v.1 + w.1, v.2.1 + w.2.1, v.2.2 + w.2.2)

/-- Elementwise scalar multiplication on a 2-tuple (the clipping range). -/
def smul2 (k : ℚ) (v : ℚ × ℚ) : ℚ × ℚ := (k * v.1, k * v.2)

/-- Elementwise addition on 2-tuples. -/
def add2 (v w : ℚ × ℚ) : ℚ × ℚ := (v.1 + w.1, v.2 + w.2)

/-- The five camera quantities that `Plotter.moveCamera` reads
(`GetPosition`, `GetFocalPoint`, `GetViewUp`, `GetClippingRange`,
`GetDistance`) and writes back (`SetPosition`, ..., `SetDistance`).
The external `vtkCamera` is abstracted to exactly this record; `DeepCopy`
is record copy and each `Set*` is a field update. -/
structure Camera where
  position : Vec3
  focalPoint : Vec3
  viewUp : Vec3
  clippingRange : ℚ × ℚ
  distance : ℚ
  deriving DecidableEq

/-- `Plotter.moveCamera(camstart, camstop, fraction)`: starts from a deep copy
of `camstart`, then sets position `p2*fraction + p1*(1-fraction)`, focal point
`f2*fraction + f1*(1-fraction)`, view-up `v2*fraction + v1*(1-fraction)`,
distance `s2*fraction + s1*(1-fraction)` and clipping range
`c2*fraction + c1*(1-fraction)`; the resulting camera is stored in
`self.camera`.  (The two `printc` warnings have no effect on the result.) -/
def moveCamera (camstart camstop : Camera) (fraction : ℚ) : Camera :=
  { position := add3 (smul3 fraction camstop.position)
      (smul3 (1 - fraction) camstart.position)
    focalPoint := add3 (smul3 fraction camstop.focalPoint)
      (smul3 (1 - fraction) camstart.focalPoint)
    viewUp := add3 (smul3 fraction camstop.viewUp)
      (smul3 (1 - fraction) camstart.viewUp)
    distance := camstop.distance * fraction + camstart.distance * (1 - fraction)
    clippingRange := add2 (smul2 fraction camstop.clippingRange)
      (smul2 (1 - fraction) camstart.clippingRange) }

/-- `Plotter.addSlider` option table for an integer `pos`: the pairs
`(Point1, Point2)` of normalized-display coordinates set for each position.
The source has branches for `pos` 1,2,3,4,5 and 11,12,13,14,15 only; any
other integer falls through every `elif` and sets nothing (`none`). -/
def sliderPoints (pos : ℤ) : Option ((ℚ × ℚ) × (ℚ × ℚ)) :=
  if pos = 1 then some ((4/100, 96/100), (45/100, 96/100))
  else if pos = 2 then some ((55/100, 96/100), (96/100, 96/100))
  else if pos = 3 then some ((4/100, 4/100), (45/100, 4/100))
  else if pos = 4 then some ((55/100, 4/100), (96/100, 4/100))
  else if pos = 5 then some ((4/100, 4/100), (96/100, 4/100))
  else if pos = 11 then some ((4/100, 54/100), (4/100, 9/10))
  else if pos = 12 then some ((96/100, 54/100), (96/100, 9/10))
  else if pos = 13 then some ((4/100, 1/10), (4/100, 54/100))
  else if pos = 14 then some ((96/100, 1/10), (96/100, 54/100))
  else if pos = 15 then some ((96/100, 1/10), (96/100, 9/10))
  else none

/-- Opaque renderable handle (a `vtkActor` / `vtkAssembly` reference). -/
abbrev Actor := ℕ

/-- `Plotter.point`: `a = shapes.point(...)` (fresh handle `a`), then
`self.actors.append(a); return a`. -/
def point (actors : List Actor) (a : Actor) : List Actor × Actor :=
  (actors ++ [a], a)

/-- `Plotter.sphere`: `a = shapes.sphere(...)`, then
`self.actors.append(a); return a`. -/
def sphere (actors : List Actor) (a : Actor) : List Actor × Actor :=
  (actors ++ [a], a)

/-- `Plotter.line`: `a = shapes.line(...)`, then
`self.actors.append(a); return a`. -/
def line (actors : List Actor) (a : Actor) : List Actor × Actor :=
  (actors ++ [a], a)

/-- `Plotter.grid`: `a = shapes.grid(...)`, then
`self.actors.append(a); return a`. -/
def grid (actors : List Actor) (a : Actor) : List Actor × Actor :=
  (actors ++ [a], a)

/-- `Plotter.text`: `a = shapes.text(...)`, then
`self.actors.append(a); return a`. -/
def text (actors : List Actor) (a : Actor) : List Actor × Actor :=
  (actors ++ [a], a)

/-- `Plotter.lastActor`: `return self.actors[-1]` (raises on an empty list,
hence `Option`). -/
def lastActor (actors : List Actor) : Option Actor :=
  actors.getLast?

/-- `Plotter.box`: `a = shapes.box(...)`, then
`self.actors.append(a); return a`. -/
def box (actors : List Actor) (a : Actor) : List Actor × Actor :=
  (actors ++ [a], a)

/-- `Plotter.cube`: `a = self.box(...)` (which already appended `a`), then
`self.actors.append(a); return a` — the handle is appended a second time. -/
def cube (actors : List Actor) (a : Actor) : List Actor × Actor :=
  let r := box actors a
  (r.1 ++ [r.2], r.2)

/-- `Plotter.cone`: `a = shapes.cone(...)`, then
`self.actors.append(a); return a`. -/
def cone (actors : List Actor) (a : Actor) : List Actor × Actor :=
  (actors ++ [a], a)

/-- `Plotter.pyramid`: `a = self.cone(...)` (which already appended `a`), then
`self.actors.append(a); return a` — the handle is appended a second time. -/
def pyramid (actors : List Actor) (a : Actor) : List Actor × Actor :=
  let r := cone actors a
  (r.1 ++ [r.2], r.2)

/-! ### Constructor grid-shape selection (`Plotter.__init__`, `N` given) -/

/-- `nx = int(numpy.sqrt(int(N*y/x)+1))` with the Python integer/float
arithmetic modelled exactly on naturals (truncating division, floor square
root). -/
def gridNx (N x y : ℕ) : ℕ := Nat.sqrt (N * y / x + 1)

/-- `ny = int(numpy.sqrt(int(N*x/y)+1))`. -/
def gridNy (N x y : ℕ) : ℕ := Nat.sqrt (N * x / y + 1)

/-- The candidate list `lm` of the constructor (Python `nx-1` is never
negative here since `nx, ny ≥ 1`, so truncated `Nat` subtraction agrees). -/
def gridCandidates (N x y : ℕ) : List (ℕ × ℕ) :=
  let nx := gridNx N x y
  let ny := gridNy N x y
  [(nx, ny), (nx, ny+1), (nx-1, ny), (nx+1, ny), (nx, ny-1),
   (nx-1, ny+1), (nx+1, ny-1), (nx+1, ny+1), (nx-1, ny-1)]

/-- Python `enumerate`, starting at a given index. -/
def enumF : ℕ → List α → List (ℕ × α)
  | _, [] => []
  | i, a :: as => (i, a) :: enumF (i+1) as

/-- One step of the selection loop:
`l = m[0]*m[1]; if N <= l < minl: ind, minl = i, l`. -/
def selStep (N : ℕ) (acc : ℕ × ℕ) (im : ℕ × (ℕ × ℕ)) : ℕ × ℕ :=
  let l := im.2.1 * im.2.2
  if N ≤ l ∧ l < acc.2 then (im.1, l) else acc

/-- The selection loop of the constructor: `ind, minl = 0, 1000`, iterate
`selStep` over `enumerate(lm)`, and return `lm[ind]`. -/
def selectShape (N : ℕ) (lm : List (ℕ × ℕ)) : ℕ × ℕ :=
  let r := (enumF 0 lm).foldl (selStep N) (0, 1000)
  lm.getD r.1 (0, 0)

/-- `shape = lm[ind]` computed by the constructor for renderer count `N` on a
screen of size `(x, y)`. -/
def gridShape (N x y : ℕ) : ℕ × ℕ := selectShape N (gridCandidates N x y)

/-- The renderer-creation double loop
`for i in reversed(range(shape[0])): for j in range(shape[1]): ...append`:
the list of `(i, j)` cells for which a renderer is appended to
`self.renderers`. -/
def buildRenderers (shape : ℕ × ℕ) : List (ℕ × ℕ) :=
  (List.range shape.1).reverse.flatMap (fun i =>
    (List.range shape.2).map (fun j => (i, j)))

/-! ### `Plotter.load` (string-input path) -/

/-- Result of `Plotter.load`: Python `None`, a single actor (`acts[0]`), or a
list of actors. -/
inductive LoadResult where
  | null
  | one (a : Actor)
  | many (l : List Actor)
  deriving DecidableEq

/-- The accumulation loop of `load` over `flist = sorted(glob.glob(inputobj))`
(which contains existing paths only): a file appends its loaded actor to
`acts`; a directory *replaces* `acts` by the directory's actors; anything
else leaves `acts` alone. -/
def loadActs ( isFile isDir : String → Bool) (loadFile : String → Actor)
    (loadDir : String → List Actor) (flist : List String) : List Actor :=
  flist.foldl (fun acts fod =>
    if isFile fod then acts ++ [loadFile fod]
    else if isDir fod then loadDir fod
    else acts) []

/-- `Plotter.load` on a string input, given the glob expansion `flist` of the
input pattern: when no actor was produced it prints
`Error in load(): cannot find ...` and returns `None` leaving `self.actors`
alone; otherwise it extends `self.actors` by `acts` and returns `acts[0]` or
`acts`.  The last component is the list of printed diagnostics. -/
def load ( isFile isDir : String → Bool) (loadFile : String → Actor)
    (loadDir : String → List Actor) (actors : List Actor)
    (inputobj : String) (flist : List String) :
    LoadResult × List Actor × List String :=
  let acts := loadActs isFile isDir loadFile loadDir flist
  if acts.length = 0 then
    (LoadResult.null, actors, ["Error in load(): cannot find " ++ inputobj])
  else if acts.length = 1 then (LoadResult.one acts.headI, actors ++ acts, [])
  else (LoadResult.many acts, actors ++ acts, [])

/-! ### `Plotter.show` legend dispatch -/

/-- The Python values a `legend=` argument can take: `None`, a string, a
sequence (list/tuple/array of legend strings), or some other object —
represented by a number, the typical malformed argument. -/
inductive PyVal where
  | none
  | str (s : String)
  | seq (l : List String)
  | num (n : ℤ)
  deriving DecidableEq

/-- Python truthiness of a legend argument (`if legend:`). -/
def truthy : PyVal → Bool
  | .none => false
  | .str s => s ≠ ""
  | .seq l => l ≠ []
  | .num n => n ≠ 0

/-- Modelled from the spec: `utils.isSequence` lives in module `utils`, which
is not under `src/`; the spec's legend dispatch distinguishes "a sequence",
"a string", and anything else (malformed), so a value is a sequence exactly
when it is built by `seq`. -/
def isSequence : PyVal → Bool
  | .seq _ => true
  | _ => false

/-- `isinstance(legend, str)`. -/
def isStr : PyVal → Bool
  | .str _ => true
  | _ => false

/-- `list(legend)` for a sequence value. -/
def seqList : PyVal → List String
  | .seq l => l
  | _ => []

/-- `str(legend)` for a string value. -/
def strOf : PyVal → String
  | .str s => s
  | _ => ""

/-- Outcome of the legend-handling block of `Plotter.show`: either execution
proceeds with the (possibly updated) `self.legend`, or the process exited via
`sys.exit()`. -/
inductive LegendOutcome where
  | proceed (legend : Option (List String))
  | exited
  deriving DecidableEq

/-- The legend block of `Plotter.show`:
`if legend:` then sequence → `self.legend = list(legend)`,
string → `self.legend = [str(legend)]`, otherwise print an error and
`sys.exit()`. -/
def showLegend (cur : Option (List String)) (legend : PyVal) : LegendOutcome :=
  if truthy legend then
    if isSequence legend then .proceed (some (seqList legend))
    else if isStr legend then .proceed (some [strOf legend])
    else .exited
  else .proceed cur

/-! ### `Plotter.removeActor`, `Plotter.clear`, `Plotter.Assembly` -/

/-- The `scan` loop of `Plotter.show` applied to a list of plain actor
handles: the `vtkActor` branch appends the handle itself to `scannedacts`
(handles are opaque, so the appearance tweaks and the trail feature of the
out-of-src `Actor` class do not alter the list). -/
def scanActors (actors : List Actor) : List Actor :=
  actors.foldl (fun acc a => acc ++ [a]) []

/-- `show()` called with no arguments rescans `self.actors` and stores the
result back: `self.actors = list(scan(self.actors))`. -/
def showRescan (actors : List Actor) : List Actor := scanActors actors

/-- The body of `Plotter.removeActor` inside the `try:`; `.error` is the
`ValueError` that `self.actors.index(a)` raises when `a` is absent.  When the
plotter is not initialized the body calls `self.show()` (which rescans the
actors) and returns. -/
def removeActorTry (init : Bool) (actors : List Actor) (a : Actor) :
    Except Unit (List Actor) :=
  if init = false then Except.ok (showRescan actors)
  else
    match actors.findIdx? (fun b => b == a) with
    | some i => Except.ok (actors.eraseIdx i)
    | none => Except.error ()

/-- `Plotter.removeActor`: the whole body is wrapped in `try: ... except:
pass`, so an exception leaves the actors list as it was. -/
def removeActor (init : Bool) (actors : List Actor) (a : Actor) : List Actor :=
  match removeActorTry init actors a with
  | .ok l => l
  | .error _ => actors

/-- `Plotter.clear(actors=[])`: with a nonempty argument it removes each
listed actor via `removeActor`; with the default empty argument it detaches
everything from the renderer and sets `self.actors = []`. -/
def clear (init : Bool) (stateActors : List Actor) (actors : List Actor) :
    List Actor :=
  if actors.length ≠ 0 then actors.foldl (removeActor init) stateActors
  else []

/-- `while a in self.actors: self.actors.remove(a)` — erase the first
occurrence of `a` until none is left. -/
def removeAllOcc (actors : List Actor) (a : Actor) : List Actor :=
  if h : a ∈ actors then removeAllOcc (actors.erase a) a else actors
termination_by actors.length
decreasing_by
  have h1 : (actors.erase a).length = actors.length - 1 :=
    List.length_erase_of_mem h
  have h2 : 0 < actors.length := List.length_pos_of_mem h
  omega

/-- `Plotter.Assembly(actorlist)`: every element of `actorlist` is removed
from `self.actors` (all occurrences), a fresh assembly handle `newA` is
created from the list and appended, and the handle is returned. -/
def Assembly (actors : List Actor) (actorlist : List Actor) (newA : Actor) :
    List Actor × Actor :=
  let updated := actorlist.foldl removeAllOcc actors
  (updated ++ [newA], newA)

/-! ## Helper lemmas -/

/-- A fold of the step functions of `loadActs` over paths that are neither
files nor directories leaves the accumulator unchanged. -/
theorem loadActs_eq_nil ( isFile isDir : String → Bool)
    (loadFile : String → Actor) (loadDir : String → List Actor) :
    ∀ (flist : List String),
      (∀ f ∈ flist, isFile f = false ∧ isDir f = false) →
      loadActs isFile isDir loadFile loadDir flist = [] := by
  have step : ∀ (flist : List String) (acc : List Actor),
      (∀ f ∈ flist, isFile f = false ∧ isDir f = false) →
      flist.foldl (fun acts fod =>
        if isFile fod then acts ++ [loadFile fod]
        else if isDir fod then loadDir fod
        else acts) acc = acc := by
    intro flist
    induction flist with
    | nil => intro acc _; rfl
    | cons f fs ih =>
      intro acc h
      have hf := h f (by simp)
      simp only [List.foldl_cons, hf.1, hf.2, if_false]
      exact ih acc fun g hg => h g (by simp [hg])
  intro flist h
  exact step flist [] h

/-- Folding the push step over a list appends the list to the accumulator. -/
theorem foldl_push (l : List Actor) :
    ∀ acc : List Actor, l.foldl (fun acc a => acc ++ [a]) acc = acc ++ l := by
  induction l with
  | nil => intro acc; simp
  | cons a as ih => intro acc; simp [ih (acc ++ [a])]

/-- The `scan` of `show` over a list of plain handles returns the same
list. -/
theorem scanActors_id (actors : List Actor) : scanActors actors = actors := by
  simpa using foldl_push actors []

/-- `findIdx?` finds nothing when the sought element is absent. -/
theorem findIdx_beq_none (l : List Actor) (a : Actor) (h : a ∉ l) :
    l.findIdx? (fun b => b == a) = none := by
  induction l with
  | nil => rfl
  | cons c cs ih =>
    have hne : (c == a) = false := by
      rw [beq_eq_false_iff_ne]
      rintro rfl
      exact h (by simp)
    have hcs : a ∉ cs := fun hm => h (by simp [hm])
    simp [List.findIdx?_cons, hne, ih hcs]

/-- Every element surviving `removeAllOcc l a` was in `l` and differs from
`a` (fuel version, by strong induction on the length). -/
theorem mem_removeAllOcc_fuel (n : ℕ) :
    ∀ (l : List Actor), l.length ≤ n → ∀ (a y : Actor),
      y ∈ removeAllOcc l a → y ∈ l ∧ y ≠ a := by
  induction n with
  | zero =>
    intro l hl a y hy
    have : l = [] := List.length_eq_zero.mp (Nat.le_zero.mp hl)
    subst this
    rw [removeAllOcc] at hy
    simp at hy
  | succ n ih =>
    intro l hl a y hy
    rw [removeAllOcc] at hy
    by_cases hmem : a ∈ l
    · rw [dif_pos hmem] at hy
      have hlen : (l.erase a).length ≤ n := by
        have h1 : (l.erase a).length = l.length - 1 :=
          List.length_erase_of_mem hmem
        have h2 : 0 < l.length := List.length_pos_of_mem hmem
        omega
      obtain ⟨hmem2, hne⟩ := ih (l.erase a) hlen a y hy
      exact ⟨List.mem_of_mem_erase hmem2, hne⟩
    · rw [dif_neg hmem] at hy
      refine ⟨hy, ?_⟩
      rintro rfl
      exact hmem hy

/-- Every element surviving `removeAllOcc l a` was in `l` and differs from
`a`. -/
theorem mem_removeAllOcc (l : List Actor) (a y : Actor)
    (hy : y ∈ removeAllOcc l a) : y ∈ l ∧ y ≠ a :=
  mem_removeAllOcc_fuel l.length l le_rfl a y hy

/-- `removeAllOcc` never contains the removed element. -/
theorem not_mem_removeAllOcc_self (l : List Actor) (a : Actor) :
    a ∉ removeAllOcc l a :=
  fun h => (mem_removeAllOcc l a a h).2 rfl

/-- `removeAllOcc` introduces no new elements. -/
theorem not_mem_removeAllOcc (l : List Actor) (a y : Actor) (h : y ∉ l) :
    y ∉ removeAllOcc l a :=
  fun hy => h (mem_removeAllOcc l a y hy).1

/-- An element absent from the accumulator stays absent through a fold of
`removeAllOcc`. -/
theorem not_mem_foldl_removeAllOcc (y : Actor) :
    ∀ (rest : List Actor) (s : List Actor),
      y ∉ s → y ∉ rest.foldl removeAllOcc s := by
  intro rest
  induction rest with
  | nil => intro s hs; simpa using hs
  | cons b bs ih =>
    intro s hs
    exact ih (removeAllOcc s b) (not_mem_removeAllOcc s b y hs)

/-- After folding `removeAllOcc` over `actorlist`, no element of `actorlist`
remains. -/
theorem mem_actorlist_not_mem_foldl (actorlist : List Actor) :
    ∀ (actors : List Actor) (x : Actor), x ∈ actorlist →
      x ∉ actorlist.foldl removeAllOcc actors := by
  induction actorlist with
  | nil => intro actors x hx; simp at hx
  | cons a rest ih =>
    intro actors x hx
    rcases List.mem_cons.mp hx with rfl | hx2
    · exact not_mem_foldl_removeAllOcc x rest (removeAllOcc actors x)
        (not_mem_removeAllOcc_self actors x)
    · exact ih (removeAllOcc actors a) x hx2

/-- The selection loop's accumulator either is still the initial `(0, 1000)`
or records the index, inside `lm`, of a candidate whose product is its second
component, at least `N` and below `1000`. -/
def SelGood (N : ℕ) (lm : List (ℕ × ℕ)) (acc : ℕ × ℕ) : Prop :=
  ∃ h : acc.1 < lm.length,
    (lm.get ⟨acc.1, h⟩).1 * (lm.get ⟨acc.1, h⟩).2 = acc.2 ∧
    N ≤ acc.2 ∧ acc.2 < 1000

/-- Each pair produced by `enumF i l` is an index offset by `i` together with
the corresponding element of `l`. -/
theorem enumF_align {α : Type} :
    ∀ (l : List α) (i : ℕ) (p : ℕ × α), p ∈ enumF i l →
      ∃ k, ∃ hk : k < l.length, p.1 = i + k ∧ l.get ⟨k, hk⟩ = p.2 := by
  intro l
  induction l with
  | nil => intro i p hp; simp [enumF] at hp
  | cons a as ih =>
    intro i p hp
    rw [enumF] at hp
    rcases List.mem_cons.mp hp with rfl | hp2
    · exact ⟨0, by simp, by simp, rfl⟩
    · obtain ⟨k, hk, h1, h2⟩ := ih (i + 1) p hp2
      refine ⟨k + 1, by simpa using Nat.succ_lt_succ hk, by omega, ?_⟩
      simpa using h2

/-- The selection loop preserves the accumulator invariant, provided the
indices it folds over are aligned with `lm`. -/
theorem sel_fold_inv (N : ℕ) (lm : List (ℕ × ℕ)) :
    ∀ (l : List (ℕ × ℕ)) (i : ℕ) (acc : ℕ × ℕ),
      (∀ p ∈ enumF i l, ∃ hk : p.1 < lm.length, lm.get ⟨p.1, hk⟩ = p.2) →
      (acc = (0, 1000) ∨ SelGood N lm acc) →
      ((enumF i l).foldl (selStep N) acc = (0, 1000) ∨
        SelGood N lm ((enumF i l).foldl (selStep N) acc)) := by
  intro l
  induction l with
  | nil => intro i acc _ hinv; simpa [enumF] using hinv
  | cons m rest ih =>
    intro i acc halign hinv
    rw [enumF]
    simp only [List.foldl_cons]
    have htail : ∀ p ∈ enumF (i + 1) rest,
        ∃ hk : p.1 < lm.length, lm.get ⟨p.1, hk⟩ = p.2 := by
      intro p hp
      exact halign p (by rw [enumF]; exact List.mem_cons_of_mem _ hp)
    refine ih (i + 1) (selStep N acc (i, m)) htail ?_
    by_cases hc : N ≤ m.1 * m.2 ∧ m.1 * m.2 < acc.2
    · right
      have hhead := halign (i, m) (by rw [enumF]; exact List.mem_cons_self _ _)
      obtain ⟨hk, hget⟩ := hhead
      simp only [List.get_eq_getElem] at hget
      have hacc2 : acc.2 ≤ 1000 := by
        rcases hinv with rfl | ⟨_, _, _, hlt⟩
        · exact le_rfl
        · exact Nat.le_of_lt hlt
      have hstep : selStep N acc (i, m) = (i, m.1 * m.2) := by
        simp [selStep, hc]
      rw [hstep]
      refine ⟨hk, ?_, hc.1, lt_of_lt_of_le hc.2 hacc2⟩
      simp [List.get_eq_getElem, hget]
    · simpa [selStep, hc] using hinv

/-- The second accumulator component never increases along the selection
loop. -/
theorem sel_fold_mono (N : ℕ) :
    ∀ (l : List (ℕ × (ℕ × ℕ))) (acc : ℕ × ℕ),
      (l.foldl (selStep N) acc).2 ≤ acc.2 := by
  intro l
  induction l with
  | nil => intro acc; simp
  | cons p rest ih =>
    intro acc
    simp only [List.foldl_cons]
    refine le_trans (ih (selStep N acc p)) ?_
    by_cases hc : N ≤ p.2.1 * p.2.2 ∧ p.2.1 * p.2.2 < acc.2
    · simp [selStep, hc]; omega
    · simp [selStep, hc]

/-- If some candidate of the folded list has product in `[N, 1000)`, the
final minimum is below `1000`. -/
theorem sel_fold_progress (N : ℕ) :
    ∀ (l : List (ℕ × ℕ)) (i : ℕ) (acc : ℕ × ℕ),
      acc.2 ≤ 1000 →
      (∃ m ∈ l, N ≤ m.1 * m.2 ∧ m.1 * m.2 < 1000) →
      ((enumF i l).foldl (selStep N) acc).2 < 1000 := by
  intro l
  induction l with
  | nil => intro i acc _ hex; simp at hex
  | cons m rest ih =>
    intro i acc hacc hex
    rw [enumF]
    simp only [List.foldl_cons]
    obtain ⟨m', hm', hge, hlt⟩ := hex
    rcases List.mem_cons.mp hm' with rfl | hm2
    · have hstep : (selStep N acc (i, m')).2 < 1000 := by
        by_cases hc : N ≤ m'.1 * m'.2 ∧ m'.1 * m'.2 < acc.2
        · simpa [selStep, hc] using hlt
        · have : acc.2 ≤ m'.1 * m'.2 := by
            rcases Nat.lt_or_ge (m'.1 * m'.2) acc.2 with hlt2 | hge2
            · exact absurd ⟨hge, hlt2⟩ hc
            · exact hge2
          simp only [selStep, hc, if_false]
          omega
      exact lt_of_le_of_lt (sel_fold_mono N _ _) hstep
    · have hstep : (selStep N acc (i, m)).2 ≤ acc.2 := by
        by_cases hc : N ≤ m.1 * m.2 ∧ m.1 * m.2 < acc.2
        · simp [selStep, hc]; omega
        · simp [selStep, hc]
      exact ih (i + 1) _ (le_trans hstep hacc) ⟨m', hm2, hge, hlt⟩

/-- When some candidate's product lies in `[N, 1000)`, the shape selected by
the loop covers at least `N`. -/
theorem selectShape_ge (N : ℕ) (lm : List (ℕ × ℕ))
    (hq : ∃ m ∈ lm, N ≤ m.1 * m.2 ∧ m.1 * m.2 < 1000) :
    N ≤ (selectShape N lm).1 * (selectShape N lm).2 := by
  have halign : ∀ p ∈ enumF 0 lm,
      ∃ hk : p.1 < lm.length, lm.get ⟨p.1, hk⟩ = p.2 := by
    intro p hp
    obtain ⟨k, hk, h1, h2⟩ := enumF_align lm 0 p hp
    have heq : p.1 = k := by omega
    rw [heq]
    exact ⟨hk, h2⟩
  have hinv := sel_fold_inv N lm lm 0 (0, 1000) halign (Or.inl rfl)
  have hprog := sel_fold_progress N lm 0 (0, 1000) (by norm_num) hq
  rcases hinv with h1 | h2
  · rw [h1] at hprog
    norm_num at hprog
  · obtain ⟨hlt, hprod, hge, _⟩ := h2
    have hsel : selectShape N lm =
        lm.get ⟨((enumF 0 lm).foldl (selStep N) (0, 1000)).1, hlt⟩ := by
      simp only [selectShape]
      simp [List.getD_eq_getElem?_getD, List.getElem?_eq_getElem hlt]
    rw [hsel, hprod]
    exact hge

/-- The renderer-creation double loop appends exactly `rows * columns`
renderers. -/
theorem length_buildRenderers (shape : ℕ × ℕ) :
    (buildRenderers shape).length = shape.1 * shape.2 := by
  have gen : ∀ (l : List ℕ) (c : ℕ),
      (l.flatMap (fun i => (List.range c).map (fun j => (i, j)))).length =
        l.length * c := by
    intro l c
    induction l with
    | nil => simp
    | cons a as ih => simp [ih]; ring
  have h := gen (List.range shape.1).reverse shape.2
  simpa [buildRenderers] using h

/-! ## Theorems -/

/-- C1: `moveCamera` is a linear interpolation between the two input camera
states: the produced camera has position `p2*f + p1*(1-f)`, focal point
`f2*f + f1*(1-f)`, view-up `v2*f + v1*(1-f)`, distance `s2*f + s1*(1-f)` and
clipping range `c2*f + c1*(1-f)`, the `1` quantities read from `camstart` and
the `2` quantities from `camstop`; at `f = 0` all five quantities equal
`camstart`'s and at `f = 1` they equal `camstop`'s. -/
theorem moveCamera_linear_interpolation (camstart camstop : Camera) (f : ℚ) :
    (moveCamera camstart camstop f).position =
      add3 (smul3 f camstop.position) (smul3 (1 - f) camstart.position) ∧
    (moveCamera camstart camstop f).focalPoint =
      add3 (smul3 f camstop.focalPoint) (smul3 (1 - f) camstart.focalPoint) ∧
    (moveCamera camstart camstop f).viewUp =
      add3 (smul3 f camstop.viewUp) (smul3 (1 - f) camstart.viewUp) ∧
    (moveCamera camstart camstop f).distance =
      camstop.distance * f + camstart.distance * (1 - f) ∧
    (moveCamera camstart camstop f).clippingRange =
      add2 (smul2 f camstop.clippingRange)
        (smul2 (1 - f) camstart.clippingRange) ∧
    moveCamera camstart camstop 0 = camstart ∧
    moveCamera camstart camstop 1 = camstop := by
  refine ⟨rfl, rfl, rfl, rfl, rfl, ?_, ?_⟩
  · obtain ⟨⟨p1, p2, p3⟩, ⟨g1, g2, g3⟩, ⟨v1, v2, v3⟩, ⟨c1, c2⟩, d⟩ := camstart
    simp [moveCamera, add3, smul3, add2, smul2]
  · obtain ⟨⟨p1, p2, p3⟩, ⟨g1, g2, g3⟩, ⟨v1, v2, v3⟩, ⟨c1, c2⟩, d⟩ := camstop
    simp [moveCamera, add3, smul3, add2, smul2]

/-- C2 counterexample: for `N = 999` on a `1000 × 1000` screen every
candidate product either is below `999` or reaches the initial minimum
`1000`, so the loop keeps its initial index `0` and selects the fallback
`(31, 31)` — only `961` renderers are created, fewer than the `999`
requested. -/
theorem grid_shape_counterexample :
    gridShape 999 1000 1000 = (31, 31) ∧
    (gridShape 999 1000 1000).1 * (gridShape 999 1000 1000).2 < 999 ∧
    (buildRenderers (gridShape 999 1000 1000)).length < 999 := by
  have hnx : gridNx 999 1000 1000 = 31 := by unfold gridNx; norm_num
  have hny : gridNy 999 1000 1000 = 31 := by unfold gridNy; norm_num
  have hcand : gridCandidates 999 1000 1000 =
      [(31, 31), (31, 32), (30, 31), (32, 31), (31, 30),
       (30, 32), (32, 30), (32, 32), (30, 30)] := by
    simp only [gridCandidates]
    rw [hnx, hny]
  have hshape : gridShape 999 1000 1000 = (31, 31) := by
    unfold gridShape
    rw [hcand]
    decide
  refine ⟨hshape, by rw [hshape]; norm_num, ?_⟩
  rw [length_buildRenderers, hshape]
  norm_num

/-- C2 (amended): whenever some candidate of the constructor's 9-entry table
has product in `[N, 1000)` — which fails for large `N`, since candidates
with product `≥ 1000` are never selected — the selected shape `(rows,
columns)` satisfies `rows*columns ≥ N`; and the constructor always creates
exactly `rows*columns` renderers. -/
theorem grid_shape_amended (N x y : ℕ) (hN : 1 ≤ N) (hx : 0 < x)
    (hy : 0 < y)
    (hq : ∃ m ∈ gridCandidates N x y, N ≤ m.1 * m.2 ∧ m.1 * m.2 < 1000) :
    N ≤ (gridShape N x y).1 * (gridShape N x y).2 ∧
    (buildRenderers (gridShape N x y)).length =
      (gridShape N x y).1 * (gridShape N x y).2 := by
  exact ⟨selectShape_ge N (gridCandidates N x y) hq,
    length_buildRenderers (gridShape N x y)⟩

/-- C2 witness: `N = 5` on the default `2160 × 1440` screen; the candidate
`(2, 3)` has product `6 ∈ [5, 1000)`, so at least 5 renderers are
created. -/
theorem grid_shape_amended_witness :
    5 ≤ (gridShape 5 2160 1440).1 * (gridShape 5 2160 1440).2 ∧
    (buildRenderers (gridShape 5 2160 1440)).length =
      (gridShape 5 2160 1440).1 * (gridShape 5 2160 1440).2 := by
  refine grid_shape_amended 5 2160 1440 (by norm_num) (by norm_num)
    (by norm_num) ?_
  have hnx : gridNx 5 2160 1440 = 2 := by unfold gridNx; norm_num
  have hny : gridNy 5 2160 1440 = 2 := by unfold gridNy; norm_num
  have hcand : gridCandidates 5 2160 1440 =
      [(2, 2), (2, 3), (1, 2), (3, 2), (2, 1),
       (1, 3), (3, 1), (3, 3), (1, 1)] := by
    simp only [gridCandidates]
    rw [hnx, hny]
  rw [hcand]
  exact ⟨(2, 3), by decide, by norm_num, by norm_num⟩

/-- C3 counterexample: position 6 lies in the claimed range 1..15, yet no
branch of the option table matches it, so the two endpoint coordinates are
never assigned. -/
theorem sliderPoints_counterexample : (sliderPoints 6).isSome = false := by
  decide

/-- C3 (amended): the option table assigns the endpoint coordinates for the
positions 1–5 and 11–15 exactly as in the source, and assigns nothing for the
positions 6–10, which have no branch. -/
theorem sliderPoints_table :
    (∀ pos : ℤ, 6 ≤ pos → pos ≤ 10 → sliderPoints pos = none) ∧
    sliderPoints 1 = some ((4/100, 96/100), (45/100, 96/100)) ∧
    sliderPoints 2 = some ((55/100, 96/100), (96/100, 96/100)) ∧
    sliderPoints 3 = some ((4/100, 4/100), (45/100, 4/100)) ∧
    sliderPoints 4 = some ((55/100, 4/100), (96/100, 4/100)) ∧
    sliderPoints 5 = some ((4/100, 4/100), (96/100, 4/100)) ∧
    sliderPoints 11 = some ((4/100, 54/100), (4/100, 9/10)) ∧
    sliderPoints 12 = some ((96/100, 54/100), (96/100, 9/10)) ∧
    sliderPoints 13 = some ((4/100, 1/10), (4/100, 54/100)) ∧
    sliderPoints 14 = some ((96/100, 1/10), (96/100, 54/100)) ∧
    sliderPoints 15 = some ((96/100, 1/10), (96/100, 9/10)) := by
  refine ⟨?_, rfl, rfl, rfl, rfl, rfl, rfl, rfl, rfl, rfl, rfl⟩
  intro pos h6 h10
  have e1 : pos ≠ 1 := by omega
  have e2 : pos ≠ 2 := by omega
  have e3 : pos ≠ 3 := by omega
  have e4 : pos ≠ 4 := by omega
  have e5 : pos ≠ 5 := by omega
  have e11 : pos ≠ 11 := by omega
  have e12 : pos ≠ 12 := by omega
  have e13 : pos ≠ 13 := by omega
  have e14 : pos ≠ 14 := by omega
  have e15 : pos ≠ 15 := by omega
  simp [sliderPoints, e1, e2, e3, e4, e5, e11, e12, e13, e14, e15]

/-- C3 witness: the amended theorem at `pos = 7`. -/
theorem sliderPoints_table_witness : sliderPoints 7 = none :=
  sliderPoints_table.1 7 (by decide) (by decide)

/-- C4: each shape-building call appends its newly created handle at the end
of the actors list, leaving the existing entries in place, and `lastActor`
then returns the handle the call produced. -/
theorem actors_insertion_ordered (actors : List Actor) (a : Actor) :
    ((point actors a).1 = actors ++ [a] ∧
      lastActor (point actors a).1 = some (point actors a).2) ∧
    ((sphere actors a).1 = actors ++ [a] ∧
      lastActor (sphere actors a).1 = some (sphere actors a).2) ∧
    ((line actors a).1 = actors ++ [a] ∧
      lastActor (line actors a).1 = some (line actors a).2) ∧
    ((grid actors a).1 = actors ++ [a] ∧
      lastActor (grid actors a).1 = some (grid actors a).2) ∧
    ((text actors a).1 = actors ++ [a] ∧
      lastActor (text actors a).1 = some (text actors a).2) := by
  refine ⟨⟨rfl, ?_⟩, ⟨rfl, ?_⟩, ⟨rfl, ?_⟩, ⟨rfl, ?_⟩, ⟨rfl, ?_⟩⟩ <;>
    simp [point, sphere, line, grid, text, lastActor, List.getLast?_concat]

/-- C6: with a truthy legend argument that is neither a sequence nor a
string, the legend block of `show` prints an error and exits the process. -/
theorem showLegend_malformed_exits (cur : Option (List String)) (x : PyVal)
    (ht : truthy x = true) (hseq : isSequence x = false)
    (hstr : isStr x = false) :
    showLegend cur x = LegendOutcome.exited := by
  cases x <;> simp_all [showLegend, truthy, isSequence, isStr]

/-- C6 witness: legend argument `3` (truthy, neither sequence nor string)
exits. -/
theorem showLegend_malformed_exits_witness :
    showLegend Option.none (PyVal.num 3) = LegendOutcome.exited :=
  showLegend_malformed_exits Option.none (PyVal.num 3) (by decide) (by decide)
    (by decide)

/-- C7: `clear()` with its default empty argument empties the actors list,
whatever it contained before and whether or not the plotter was
initialized. -/
theorem clear_default_empties (init : Bool) (stateActors : List Actor) :
    clear init stateActors [] = [] := by
  simp [clear]

/-- C8: `cube` (via `box`) and `pyramid` (via `cone`) each append the single
handle they create twice — once in the delegated call and once in the method
itself — so the actors list grows by exactly two entries referring to the
same handle, which the method returns. -/
theorem cube_pyramid_double_append (actors : List Actor) (a : Actor) :
    (cube actors a).1 = actors ++ [a, a] ∧ (cube actors a).2 = a ∧
    (pyramid actors a).1 = actors ++ [a, a] ∧ (pyramid actors a).2 = a := by
  refine ⟨?_, rfl, ?_, rfl⟩ <;> simp [cube, box, pyramid, cone]

/-- C5: when the input path string matches no existing file or directory
(every glob match is neither a file nor a directory; in particular when the
glob expansion is empty), `load` prints a diagnostic, returns `None`, and
leaves the actors list unchanged. -/
theorem load_no_match_returns_null ( isFile isDir : String → Bool)
    (loadFile : String → Actor) (loadDir : String → List Actor)
    (actors : List Actor) (inputobj : String) (flist : List String)
    (h : ∀ f ∈ flist, isFile f = false ∧ isDir f = false) :
    load isFile isDir loadFile loadDir actors inputobj flist =
      (LoadResult.null, actors,
        ["Error in load(): cannot find " ++ inputobj]) := by
  have hacts := loadActs_eq_nil isFile isDir loadFile loadDir flist h
  simp [load, hacts]

/-- C5 witness: a glob expansion whose single match is neither a file nor a
directory (the empty expansion is the `flist = []` special case). -/
theorem load_no_match_witness :
    load (fun _ => false) (fun _ => false) (fun _ => 0) (fun _ => [])
      [5] "missing.vtk" ["missing.vtk"] =
      (LoadResult.null, [5], ["Error in load(): cannot find missing.vtk"]) :=
  load_no_match_returns_null (fun _ => false) (fun _ => false) (fun _ => 0)
    (fun _ => []) [5] "missing.vtk" ["missing.vtk"] (by simp)

/-- C9: `removeActor` is total and atomic: the `try/except` swallows any
exception of the body leaving the actors list as it was, and whenever the
argument is not in the actors list the list is left exactly unchanged
(whether or not the plotter is initialized — in the uninitialized branch the
`show()` rescan stores back the same list of handles). -/
theorem removeActor_total_atomic (init : Bool) (actors : List Actor)
    (a : Actor) (h : a ∉ actors) :
    (∀ e, removeActorTry init actors a = Except.error e →
      removeActor init actors a = actors) ∧
    removeActor init actors a = actors := by
  constructor
  · intro e he
    simp [removeActor, he]
  · cases init with
    | false =>
      simp [removeActor, removeActorTry, showRescan, scanActors_id]
    | true =>
      simp [removeActor, removeActorTry, findIdx_beq_none actors a h]

/-- C9 witness: removing an absent handle from `[1, 2]` leaves it
unchanged. -/
theorem removeActor_total_atomic_witness :
    removeActor true [1, 2] 0 = [1, 2] :=
  (removeActor_total_atomic true [1, 2] 0 (by decide)).2

/-- C10: after `Assembly(actorlist)` no element of `actorlist` occurs
anywhere in the actors list (duplicates included), and the freshly created
assembly handle — fresh, so not itself an element of `actorlist` — is the
last element of the actors list. -/
theorem assembly_removes_elements (actors actorlist : List Actor)
    (newA : Actor) (hfresh : newA ∉ actorlist) :
    (∀ x ∈ actorlist, x ∉ (Assembly actors actorlist newA).1) ∧
    (Assembly actors actorlist newA).1.getLast? = some newA := by
  constructor
  · intro x hx
    simp only [Assembly, List.mem_append, List.mem_singleton]
    rintro (hmem | rfl)
    · exact mem_actorlist_not_mem_foldl actorlist actors x hx hmem
    · exact hfresh hx
  · exact List.getLast?_concat _

/-- C10 witness: grouping `[1, 3]` out of `[1, 2, 1, 3]` into the fresh
handle `7`: both occurrences of `1` are gone and `7` is last. -/
theorem assembly_removes_elements_witness :
    1 ∉ (Assembly [1, 2, 1, 3] [1, 3] 7).1 ∧
    (Assembly [1, 2, 1, 3] [1, 3] 7).1.getLast? = some 7 :=
  ⟨(assembly_removes_elements [1, 2, 1, 3] [1, 3] 7 (by decide)).1 1
      (by decide),
    (assembly_removes_elements [1, 2, 1, 3] [1, 3] 7 (by decide)).2⟩

end VPlot
